import Mathlib

/-!
Verification of the k6 load-testing demo repository.

The repository consists of k6 scenario scripts (under k6-tests/) together
with a demo backend.  The load-testing engine those scripts configure
(stage scheduler, metric registry, VU executor, threshold evaluator,
request client, summary builder) is the k6 runtime itself, which is not
part of the repository; where a claim is decided by engine behaviour, the
corresponding definition is modelled from the specification and marked as
such in its doc comment.  Definitions whose doc comment cites a source
file are direct embeddings of that script code.
-/

namespace K6

/-! ### Script error-rate samples (basic-load-test.js, spike test) -/

/-- From tests/load/basic-load-test.js (load test, Step 6 tail): the sample
added to the api_error_rate Rate metric each iteration.  Source:
`const responses = [healthResponse, productsResponse, searchResponse, categoryResponse];`
`const errorCount = responses.filter(r => r.status >= 400).length;`
`apiErrorRate.add(errorCount / responses.length);` -/
def apiErrorSample (healthS productsS searchS categoryS : Nat) : ℚ :=
  let responses : List Nat := [healthS, productsS, searchS, categoryS]
  let errorCount := (responses.filter (fun s => decide (400 ≤ s))).length
  (errorCount : ℚ) / (responses.length : ℚ)

/-- From the spike test in the same file: the sample added to the
spike_error_rate Rate metric each iteration.  Source:
`const allResponses = [healthResponse, authResponse, errorResponse];`
`const spikeErrors = allResponses.filter(r => r.status >= 400 && r.status !== 429).length;`
`spikeErrorRate.add(spikeErrors / allResponses.length);` -/
def spikeErrorSample (healthS authS errorS : Nat) : ℚ :=
  let allResponses : List Nat := [healthS, authS, errorS]
  let spikeErrors :=
    (allResponses.filter (fun s => decide (400 ≤ s) && decide (s ≠ 429))).length
  (spikeErrors : ℚ) / (allResponses.length : ℚ)

/-- The count described by claim C10, written from the claim text: among the
health, auth-register and error-endpoint responses, those whose status is at
least 400 and not equal to 429. -/
def claimSpikeErrorCount (healthS authS errorS : Nat) : Nat :=
  (([healthS, authS, errorS]).filter (fun s => decide (400 ≤ s ∧ s ≠ 429))).length

/-- The count described by claim C10 for the load test: every response with
status at least 400 (hence including 429). -/
def claimApiErrorCount (healthS productsS searchS categoryS : Nat) : Nat :=
  (([healthS, productsS, searchS, categoryS]).filter (fun s => decide (400 ≤ s))).length

/-! ### Threshold expressions (configs in utils/helpers.js and the scripts;
evaluation semantics modelled from the spec) -/

/-- Modelled from the spec: the named statistics a threshold expression may
select (`avg`, `min`, `max`, `p(N)`, `rate`, `count`). -/
inductive Stat where
  | avg : Stat
  | minS : Stat
  | maxS : Stat
  | pct : Nat → Stat
  | rate : Stat
  | count : Stat
deriving DecidableEq

/-- Modelled from the spec: the comparison operators allowed in a threshold
expression. -/
inductive Cmp where
  | lt : Cmp
  | le : Cmp
  | gt : Cmp
  | ge : Cmp
  | eq : Cmp
deriving DecidableEq

/-- Modelled from the spec: one threshold expression, a comparison of a named
statistic of the selected metric against a literal, e.g. p(95)<2000 or
rate>0.95 as in PERFORMANCE_THRESHOLDS of utils/helpers.js. -/
structure Expr where
  stat : Stat
  cmp : Cmp
  bound : ℚ
deriving DecidableEq

/-- Final aggregated statistics of one (sub-)metric. -/
structure Snapshot where
  avg : ℚ
  minV : ℚ
  maxV : ℚ
  pct : Nat → ℚ
  rate : ℚ
  count : ℚ

/-- The value of a named statistic in a snapshot. -/
def statValue (snap : Snapshot) : Stat → ℚ
  | Stat.avg => snap.avg
  | Stat.minS => snap.minV
  | Stat.maxS => snap.maxV
  | Stat.pct n => snap.pct n
  | Stat.rate => snap.rate
  | Stat.count => snap.count

/-- Evaluate a comparison operator. -/
def cmpEval : Cmp → ℚ → ℚ → Bool
  | Cmp.lt, x, b => decide (x < b)
  | Cmp.le, x, b => decide (x ≤ b)
  | Cmp.gt, x, b => decide (b < x)
  | Cmp.ge, x, b => decide (b ≤ x)
  | Cmp.eq, x, b => decide (x = b)

/-- Whether one threshold expression passes against a snapshot. -/
def exprPasses (snap : Snapshot) (e : Expr) : Bool :=
  cmpEval e.cmp (statValue snap e.stat) e.bound

/-- Modelled from the spec: a threshold entry with several expressions passes
when the conjunction of its expressions passes (AND-fold over the list). -/
def entryPasses (snap : Snapshot) (exprs : List Expr) : Bool :=
  exprs.foldr (fun e acc => exprPasses snap e && acc) true

/-- One configured threshold entry together with the snapshot of the metric
its selector picked out. -/
structure ThresholdEntry where
  snap : Snapshot
  exprs : List Expr

/-- Modelled from the spec: the overall run threshold-pass status is the
AND-fold across all threshold entries. -/
def runThresholdsPass (entries : List ThresholdEntry) : Bool :=
  entries.foldr (fun en acc => entryPasses en.snap en.exprs && acc) true

/-! ### Counter metric under concurrent recording (Counter usage in the
scripts; registry accumulation semantics modelled from the spec) -/

/-- A Counter metric accumulates the values of its append-only samples; the
load test records business transactions with businessTransactionCounter.add(1). -/
structure CounterState where
  value : ℚ
deriving DecidableEq

/-- Record one sample into a Counter. -/
def counterRecord (st : CounterState) (v : ℚ) : CounterState :=
  CounterState.mk (st.value + v)

/-- Apply a whole trace of recorded samples in order. -/
def counterRun (tr : List ℚ) (st : CounterState) : CounterState :=
  tr.foldl counterRecord st

/-- Modelled from the spec: an interleaving of two sequential event lists,
preserving the order inside each list; the registry observes some such merge
of two VUs' record calls. -/
inductive Merge {α : Type} : List α → List α → List α → Prop where
  | nil : Merge [] [] []
  | left : ∀ {x : α} {xs ys zs}, Merge xs ys zs → Merge (x :: xs) ys (x :: zs)
  | right : ∀ {y : α} {xs ys zs}, Merge xs ys zs → Merge xs (y :: ys) (y :: zs)

/-- Modelled from the spec: a global schedule of many VUs' record calls is an
interleaving of the per-VU call lists, in any order. -/
inductive Sched {α : Type} : List (List α) → List α → Prop where
  | nil : Sched [] []
  | cons : ∀ {vu : List α} {rest zs merged}, Sched rest zs → Merge vu zs merged →
      Sched (vu :: rest) merged

/-! ### VU executor (modelled from the spec) -/

/-- State of one virtual user: the index of its next iteration, the list of
iterations it has executed, and the number of samples recorded into its error
metric. -/
structure VUState where
  nextIter : Nat
  executed : List Nat
  errors : Nat
deriving DecidableEq

/-- Whether a scenario iteration outcome is an uncaught exception. -/
def isErr (r : Except String Unit) : Bool :=
  match r with
  | Except.error _ => true
  | Except.ok _ => false

/-- Modelled from the spec: the VU iteration loop.  The fuel argument is the
number of iterations the run-level cutoff still allows; an iteration whose
scenario function throws is recorded in the error metric and the VU proceeds
to its next iteration; the loop always returns a state, so the run as a whole
never crashes. -/
def runVU (f : Nat → Except String Unit) : Nat → VUState → VUState
  | 0, st => st
  | n + 1, st =>
      match f st.nextIter with
      | Except.ok _ =>
          runVU f n (VUState.mk (st.nextIter + 1) (st.executed ++ [st.nextIter]) st.errors)
      | Except.error _ =>
          runVU f n (VUState.mk (st.nextIter + 1) (st.executed ++ [st.nextIter]) (st.errors + 1))

/-- Number of iteration indices in the window starting at s of width n on
which the scenario function throws. -/
def errCount (f : Nat → Except String Unit) (s n : Nat) : Nat :=
  ((List.range' s n).filter (fun k => isErr (f k))).length

/-- A concrete scenario function that throws on its first iteration only. -/
def demoScen (k : Nat) : Except String Unit :=
  if k = 0 then Except.error "boom" else Except.ok ()

/-! ### Run-level outcome (setup gate embedded from basic-load-test.js;
run semantics modelled from the spec) -/

/-- From tests/load/basic-load-test.js setup(): the availability gate.
Source: `if (healthResponse.status !== 200) throw new Error('API is not
available - health check failed');` followed by a normal return. -/
def setupHealthGate (healthStatus : Nat) : Except String Unit :=
  if healthStatus ≠ 200 then Except.error "API is not available - health check failed"
  else Except.ok ()

/-- Final summary snapshot: the number of samples it aggregates. -/
structure RunSummary where
  samples : Nat
deriving DecidableEq

/-- Outcome of a whole run. -/
structure RunOutcome where
  exitCode : Nat
  vusStarted : Nat
  iterations : Nat
  summary : Option RunSummary
deriving DecidableEq

/-- Modelled from the spec: the exit code distinguishing threshold failure. -/
def thresholdFailExitCode : Nat := 99

/-- Modelled from the spec: the exit code for a fatal execution error. -/
def fatalErrorExitCode : Nat := 1

/-- Engine configuration for a run with a fixed VU count and iteration
budget, plus the overall threshold verdict. -/
structure EngineConfig where
  vus : Nat
  iterationsPerVU : Nat
  thresholdsPass : Bool

/-- Modelled from the spec: the run driver.  A setup failure is fatal: no VU
starts, no iteration is recorded, the process exits with the fatal execution
error code and no sample-bearing summary is produced.  Otherwise every VU
runs its iterations, one sample per iteration is aggregated into the single
summary created at run completion, and the exit code is zero or the
threshold-failure code according to the threshold verdicts. -/
def runEngine (setupResult : Except String Unit) (cfg : EngineConfig) : RunOutcome :=
  match setupResult with
  | Except.error _ =>
      RunOutcome.mk fatalErrorExitCode 0 0 none
  | Except.ok _ =>
      RunOutcome.mk (if cfg.thresholdsPass then 0 else thresholdFailExitCode)
        cfg.vus (cfg.vus * cfg.iterationsPerVU)
        (some (RunSummary.mk (cfg.vus * cfg.iterationsPerVU)))

/-! ### Threshold evaluation against the registry (modelled from the spec;
selector shapes as in PERFORMANCE_THRESHOLDS of utils/helpers.js) -/

/-- Tags attached to a sample or required by a selector. -/
abbrev TagSet := List (String × String)

/-- A metric selector: metric name plus optional tag filter, as in
http_req_duration or http_req_duration filtered by api:auth. -/
structure Selector where
  name : String
  tagFilter : TagSet

/-- Stored per-metric data: its append-only tagged samples. -/
structure MetricData where
  samples : List (TagSet × ℚ)

/-- The metric registry: an association of names to metric data. -/
abbrev Registry := List (String × MetricData)

/-- The samples of the tag-filtered sub-metric a selector addresses: those
whose tags contain every key-value pair of the filter. -/
def subSamples (md : MetricData) (filt : TagSet) : List (TagSet × ℚ) :=
  md.samples.filter (fun smp => filt.all (fun kv => decide (kv ∈ smp.fst)))

/-- Insert into an ascending list. -/
def insertAsc (x : ℚ) : List ℚ → List ℚ
  | [] => [x]
  | y :: ys => if x ≤ y then x :: y :: ys else y :: insertAsc x ys

/-- Insertion sort, ascending. -/
def sortAsc (vs : List ℚ) : List ℚ := vs.foldr insertAsc []

/-- Nearest-rank percentile of a value list; the spec requires only a
bounded-error estimator. -/
def percentileOf (vs : List ℚ) (n : Nat) : ℚ :=
  (sortAsc vs).getD (Nat.min (n * vs.length / 100) (vs.length - 1)) 0

/-- Aggregate statistics of a list of tagged samples: average, extremes,
percentiles, fraction of nonzero samples, and sample count. -/
def snapshotOf (samples : List (TagSet × ℚ)) : Snapshot :=
  let vs := samples.map Prod.snd
  Snapshot.mk (vs.sum / (vs.length : ℚ)) ((sortAsc vs).headD 0) ((sortAsc vs).getLastD 0)
    (fun n => percentileOf vs n)
    (((vs.filter (fun v => decide (v ≠ 0))).length : ℚ) / (vs.length : ℚ))
    ((vs.length : ℚ))

/-- Why a threshold verdict came out as it did. -/
inductive ThresholdReason where
  | noData
  | evaluated
deriving DecidableEq

/-- A threshold verdict. -/
structure Verdict where
  passed : Bool
  reason : ThresholdReason
deriving DecidableEq

/-- Modelled from the spec: evaluate one configured threshold against the
registry.  An undefined metric name is a configuration error; a tag-filtered
sub-metric with zero samples evaluates to a failed verdict with the explicit
no-data reason; otherwise the AND of the expressions over the sub-metric
snapshot decides the verdict. -/
def evaluateThreshold (reg : Registry) (sel : Selector) (exprs : List Expr) :
    Except String Verdict :=
  match reg.lookup sel.name with
  | none => Except.error ("threshold references undefined metric: " ++ sel.name)
  | some md =>
      let chosen := subSamples md sel.tagFilter
      if chosen.isEmpty then Except.ok (Verdict.mk false ThresholdReason.noData)
      else Except.ok (Verdict.mk (entryPasses (snapshotOf chosen) exprs) ThresholdReason.evaluated)

/-- A concrete registry: one http_req_duration sample tagged api:products. -/
def demoRegistry : Registry :=
  [("http_req_duration", MetricData.mk [([("api", "products")], 120)])]

/-! ### Rate metric (Rate usage in the scripts; coercion semantics modelled
from the spec) -/

/-- The dynamically typed values a script may pass to Rate.add: booleans,
numbers, or anything else. -/
inductive JsValue where
  | bool : Bool → JsValue
  | num : ℚ → JsValue
  | other : JsValue
deriving DecidableEq

/-- Modelled from the spec coercion rule: true and nonzero map to success,
false and zero to failure; a non-boolean-coercible value is a reported
caller contract violation, never silently coerced. -/
def coerceToBool : JsValue → Except String Bool
  | JsValue.bool b => Except.ok b
  | JsValue.num q => Except.ok (decide (q ≠ 0))
  | JsValue.other => Except.error "non-boolean-coercible value recorded to Rate metric"

/-- Whether a value is boolean-coercible. -/
def coercible : JsValue → Bool
  | JsValue.other => false
  | _ => true

/-- The success or failure a coercible value denotes. -/
def coercesTrue : JsValue → Bool
  | JsValue.bool b => b
  | JsValue.num q => decide (q ≠ 0)
  | JsValue.other => false

/-- Accumulated state of a Rate metric: success samples and total samples. -/
structure RateState where
  successes : Nat
  total : Nat
deriving DecidableEq

/-- Record one value into a Rate metric. -/
def rateRecord (st : RateState) (v : JsValue) : Except String RateState :=
  match coerceToBool v with
  | Except.error e => Except.error e
  | Except.ok true => Except.ok (RateState.mk (st.successes + 1) (st.total + 1))
  | Except.ok false => Except.ok (RateState.mk st.successes (st.total + 1))

/-- Record a list of values in order, stopping at the first contract
violation, which is reported. -/
def rateRecordAll : List JsValue → RateState → Except String RateState
  | [], st => Except.ok st
  | v :: vs, st =>
      match rateRecord st v with
      | Except.error e => Except.error e
      | Except.ok st2 => rateRecordAll vs st2

/-- The rate statistic: success samples over total samples. -/
def rateStat (st : RateState) : ℚ := (st.successes : ℚ) / (st.total : ℚ)

/-! ### Request client (modelled from the spec; failure observation as in
the spike test checks, which assert r.status !== 0) -/

/-- Per-call timing breakdown. -/
structure Timings where
  dns : ℚ
  connect : ℚ
  tls : ℚ
  wait : ℚ
  transfer : ℚ
deriving DecidableEq

/-- The modelled network failure modes. -/
inductive NetFailure where
  | connectionRefused
  | timeout
  | tlsError
deriving DecidableEq

/-- What the network did for one request. -/
inductive NetOutcome where
  | success : Nat → Timings → NetOutcome
  | failure : NetFailure → NetOutcome
deriving DecidableEq

/-- One completed exchange as the scripts observe it. -/
structure Sample where
  method : String
  url : String
  tags : TagSet
  status : Int
  timings : Timings
  error : Option String
deriving DecidableEq

/-- All-zero timing breakdown, used for failed exchanges. -/
def zeroTimings : Timings := Timings.mk 0 0 0 0 0

/-- Human-readable description of a network failure. -/
def failureText : NetFailure → String
  | NetFailure.connectionRefused => "connection refused"
  | NetFailure.timeout => "request timeout"
  | NetFailure.tlsError => "TLS handshake error"

/-- Modelled from the spec: the request client always returns a Sample and
never throws; a network failure yields a synthetic status 0 together with a
set error field. -/
def request (method url : String) (tags : TagSet) (outcome : NetOutcome) : Sample :=
  match outcome with
  | NetOutcome.success st t => Sample.mk method url tags (st : Int) t none
  | NetOutcome.failure f => Sample.mk method url tags 0 zeroTimings (some (failureText f))

/-- Whether the network outcome was a failure. -/
def isFailureOutcome : NetOutcome → Bool
  | NetOutcome.failure _ => true
  | NetOutcome.success _ _ => false

/-- The http_req_failed observation on a sample: a failing data point has a
synthetic non-positive status or an HTTP error status. -/
def sampleFailed (s : Sample) : Bool :=
  decide (s.status ≤ 0) || decide (400 ≤ s.status)

/-! ### Summary building (embedded from
tests/scenarios/advanced-features.js handleSummary and generateMetricsCSV) -/

/-- The values object of one metric in the end-of-test summary data as read
by generateMetricsCSV: optional avg, rate and value entries. -/
structure MetricValues where
  avg : Option ℚ
  rate : Option ℚ
  value : Option ℚ
deriving DecidableEq

/-- One metric entry of the summary data: its type string and its values
object (absent when the JS guard on metric.values fails). -/
structure SummaryMetric where
  type : String
  values : Option MetricValues
deriving DecidableEq

/-- The summary data handleSummary receives: its metrics object as an
ordered association of names to metric entries. -/
structure SummaryData where
  metrics : List (String × SummaryMetric)
deriving DecidableEq

/-- One row of the metrics-export CSV after the header line: name with
suffix, value, unit column, timestamp column. -/
structure CsvRow where
  rowName : String
  value : ℚ
  unit : String
  timestamp : String
deriving DecidableEq

/-- From generateMetricsCSV: the rows contributed by one metric — an _avg
row with the metric type as unit, a _rate row with unit rate, a _value row
with unit gauge, each stamped with the wall-clock timestamp taken during the
call. -/
def metricCsvRows (name : String) (m : SummaryMetric) (now : String) : List CsvRow :=
  match m.values with
  | none => []
  | some vs =>
      (match vs.avg with
        | some a => [CsvRow.mk (name ++ "_avg") a m.type now]
        | none => []) ++
      (match vs.rate with
        | some r => [CsvRow.mk (name ++ "_rate") r "rate" now]
        | none => []) ++
      (match vs.value with
        | some v => [CsvRow.mk (name ++ "_value") v "gauge" now]
        | none => [])

/-- From generateMetricsCSV: all rows, iterating the metrics in order; the
now argument stands for new Date().toISOString() evaluated during the call,
which the source takes from the ambient clock, not from the summary data. -/
def generateMetricsCSV (d : SummaryData) (now : String) : List CsvRow :=
  d.metrics.foldr (fun nm acc => metricCsvRows nm.fst nm.snd now ++ acc) []

/-- Lookup of one metric entry by name, as metrics.name does in the source. -/
def metricOf (d : SummaryData) (n : String) : Option SummaryMetric :=
  d.metrics.lookup n

/-- metrics.n?.values?.avg of the source. -/
def metricAvg (d : SummaryData) (n : String) : Option ℚ :=
  (metricOf d n).bind (fun m => m.values.bind (fun v => v.avg))

/-- metrics.n?.values?.rate of the source. -/
def metricRate (d : SummaryData) (n : String) : Option ℚ :=
  (metricOf d n).bind (fun m => m.values.bind (fun v => v.rate))

/-- metrics.n?.values?.value of the source. -/
def metricGaugeValue (d : SummaryData) (n : String) : Option ℚ :=
  (metricOf d n).bind (fun m => m.values.bind (fun v => v.value))

/-- From generateAdvancedRecommendations of advanced-features.js: the four
conditional recommendations followed by the five constant ones. -/
def generateAdvancedRecommendations (d : SummaryData) : List String :=
  let healthScore := (metricGaugeValue d "system_health_score").getD 0
  let performanceScore := (metricAvg d "performance_score").getD 0
  let dataIntegrityRate := (metricRate d "data_integrity_rate").getD 0
  let availability := (metricRate d "service_availability").getD 0
  (if healthScore < 0.8 then
    ["System health score below 80% - investigate system resources"] else []) ++
  (if performanceScore < 80 then
    ["Performance score below 80 - optimize critical operations"] else []) ++
  (if dataIntegrityRate < 0.99 then
    ["Data integrity issues detected - review data validation"] else []) ++
  (if availability < 0.999 then
    ["Service availability below 99.9% - implement redundancy"] else []) ++
  ["Implement advanced monitoring dashboards",
   "Set up automated alerting based on custom metrics",
   "Consider implementing circuit breakers for resilience",
   "Add distributed tracing for complex operations",
   "Implement real-time performance monitoring"]

/-- The advancedAnalysis document built inside handleSummary: the metric
lookups of its systemMetrics and businessMetrics blocks plus the
recommendations; the features block, constant for a fixed FEATURES
configuration, carries no summary data. -/
structure AdvancedAnalysisDoc where
  systemHealthScore : Option ℚ
  systemPerformanceScore : Option ℚ
  systemDataIntegrityRate : Option ℚ
  systemAvailability : Option ℚ
  businessAverageProcessTime : Option ℚ
  businessConcurrentUsers : Option ℚ
  recommendations : List String
deriving DecidableEq

/-- The advancedAnalysis object of handleSummary as a function of the data. -/
def advancedAnalysisOf (d : SummaryData) : AdvancedAnalysisDoc :=
  AdvancedAnalysisDoc.mk (metricGaugeValue d "system_health_score")
    (metricAvg d "performance_score") (metricRate d "data_integrity_rate")
    (metricRate d "service_availability") (metricAvg d "business_process_duration")
    (metricGaugeValue d "concurrent_active_users")
    (generateAdvancedRecommendations d)

/-- The five outputs handleSummary returns, keyed stdout, summary.html,
advanced-results.json, advanced-analysis.json and metrics-export.csv. -/
structure SummaryOutputs where
  stdoutText : String
  htmlText : String
  jsonResults : SummaryData
  analysisDoc : AdvancedAnalysisDoc
  csvRows : List CsvRow
deriving DecidableEq

/-- From handleSummary of advanced-features.js.  textSummary and htmlReport
are imported from the k6 jslib bundle, which is not part of the repository,
so they are taken here as function parameters; now stands for the wall clock
read by generateMetricsCSV during the call. -/
def handleSummaryAdvanced (textSummary htmlReport : SummaryData → String)
    (d : SummaryData) (now : String) : SummaryOutputs :=
  SummaryOutputs.mk (textSummary d) (htmlReport d) d (advancedAnalysisOf d)
    (generateMetricsCSV d now)

/-- The clock-independent columns of a CSV row. -/
def csvRowKey (r : CsvRow) : String × ℚ × String := (r.rowName, r.value, r.unit)

/-- A concrete summary data object with one trend metric carrying an avg. -/
def demoSummaryData : SummaryData :=
  SummaryData.mk
    [("http_req_duration", SummaryMetric.mk "trend" (some (MetricValues.mk (some 120) none none)))]

/-! ### Stage scheduler (stage lists embedded from the scripts;
interpolation semantics modelled from the spec) -/

/-- One load stage: duration and target VU count, as in options.stages. -/
structure Stage where
  duration : ℚ
  target : ℚ
deriving DecidableEq

/-- From tests/load/basic-load-test.js options.stages, durations in
seconds: 2m to 10, 5m at 10, 2m to 20, 5m at 20, 2m to 0. -/
def loadTestStages : List Stage :=
  [Stage.mk 120 10, Stage.mk 300 10, Stage.mk 120 20, Stage.mk 300 20, Stage.mk 120 0]

/-- Modelled from the spec: the target VU count at elapsed time t, ramping
linearly from the incoming VU count to the stage target across each stage in
order; init is the VU count the first stage ramps from. -/
def targetVU (init : ℚ) : List Stage → ℚ → ℚ
  | [], _ => init
  | s :: rest, t =>
      if t ≤ s.duration then
        (if s.duration = 0 then s.target else init + (s.target - init) * t / s.duration)
      else targetVU s.target rest (t - s.duration)

/-- Elapsed time at which stage i starts: the sum of the first i durations. -/
def stageStart : List Stage → Nat → ℚ
  | _, 0 => 0
  | [], _ + 1 => 0
  | s :: rest, i + 1 => s.duration + stageStart rest i

/-- The VU count stage i ramps from: the configured initial count for stage
0, the previous stage's declared target afterwards. -/
def rampBase (init : ℚ) : List Stage → Nat → ℚ
  | _, 0 => init
  | [], _ + 1 => init
  | s :: rest, i + 1 => rampBase s.target rest i

end K6

namespace K6

/-! ### Theorems -/

/-- An AND-fold over a list is true exactly when the predicate holds on every
element. -/
theorem foldr_and_eq_true {α : Type} (p : α → Bool) (l : List α) :
    (l.foldr (fun a acc => p a && acc) true = true) ↔ ∀ a ∈ l, p a = true := by
  induction l with
  | nil => simp
  | cons x xs ih =>
      simp only [List.foldr_cons, Bool.and_eq_true, List.mem_cons]
      constructor
      · rintro ⟨hx, hxs⟩ a (rfl | ha)
        · exact hx
        · exact ih.mp hxs a ha
      · intro h
        exact ⟨h x (Or.inl rfl), ih.mpr fun a ha => h a (Or.inr ha)⟩

/-- C5: a threshold entry with multiple expressions passes iff every one of
its expressions passes (AND-combination), and the overall run threshold-pass
status is true iff every threshold entry passes (AND across entries). -/
theorem thresholds_and_combined :
    (∀ (snap : Snapshot) (exprs : List Expr),
        entryPasses snap exprs = true ↔ ∀ e ∈ exprs, exprPasses snap e = true)
    ∧ (∀ entries : List ThresholdEntry,
        runThresholdsPass entries = true ↔
          ∀ en ∈ entries, entryPasses en.snap en.exprs = true) := by
  constructor
  · intro snap exprs
    exact foldr_and_eq_true (exprPasses snap) exprs
  · intro entries
    exact foldr_and_eq_true (fun en => entryPasses en.snap en.exprs) entries

/-- C10: the spike_error_rate sample counts exactly the responses with status
at least 400 and not 429 among health, auth-register and error-endpoint,
divided by three; replacing any of the three responses by a 429 gives the
same sample as replacing it by a 200, so rate-limited responses never raise
spike_error_rate; the load test's api_error_rate sample counts every status
at least 400, 429 included. -/
theorem spike_error_rate_excludes_429 :
    (∀ h a e : Nat, spikeErrorSample h a e = (claimSpikeErrorCount h a e : ℚ) / 3)
    ∧ (∀ h e : Nat, spikeErrorSample h 429 e = spikeErrorSample h 200 e)
    ∧ (∀ a e : Nat, spikeErrorSample 429 a e = spikeErrorSample 200 a e)
    ∧ (∀ h a : Nat, spikeErrorSample h a 429 = spikeErrorSample h a 200)
    ∧ (∀ h p s c : Nat, apiErrorSample h p s c = (claimApiErrorCount h p s c : ℚ) / 4)
    ∧ (∀ p s c : Nat, apiErrorSample 429 p s c = apiErrorSample 500 p s c) := by
  refine ⟨?_, ?_, ?_, ?_, ?_, ?_⟩
  · intro h a e
    have hp : ∀ s : Nat, decide (400 ≤ s ∧ s ≠ 429) = (decide (400 ≤ s) && decide (s ≠ 429)) := by
      intro s
      by_cases h1 : 400 ≤ s <;> by_cases h2 : s = 429 <;> simp [h1, h2]
    simp [spikeErrorSample, claimSpikeErrorCount, hp]
  · intro h e
    simp [spikeErrorSample, List.filter]
  · intro a e
    simp [spikeErrorSample, List.filter]
  · intro h a
    simp [spikeErrorSample, List.filter]
  · intro h p s c
    simp [apiErrorSample, claimApiErrorCount]
  · intro p s c
    simp [apiErrorSample, List.filter]

/-- A merge of two traces carries exactly the samples of both: its sum is the
sum of the two parts. -/
theorem merge_sum_eq {xs ys zs : List ℚ} (h : Merge xs ys zs) :
    zs.sum = xs.sum + ys.sum := by
  induction h with
  | nil => simp
  | left _ ih => simp only [List.sum_cons, ih]; ring
  | right _ ih => simp only [List.sum_cons, ih]; ring

/-- A schedule of many VUs' traces carries exactly all their samples. -/
theorem sched_sum_eq {ls : List (List ℚ)} {tr : List ℚ} (h : Sched ls tr) :
    tr.sum = (ls.map List.sum).sum := by
  induction h with
  | nil => simp
  | cons _ hm ih => rw [List.map_cons, List.sum_cons, merge_sum_eq hm, ih]

/-- The Counter value after a trace is the initial value plus the trace sum. -/
theorem counterRun_value (tr : List ℚ) (st : CounterState) :
    (counterRun tr st).value = st.value + tr.sum := by
  induction tr generalizing st with
  | nil => simp [counterRun]
  | cons v vs ih =>
      show (counterRun vs (counterRecord st v)).value = st.value + (v :: vs).sum
      rw [ih]
      simp only [counterRecord, List.sum_cons]
      ring

/-- C2: for every interleaving of N concurrent VUs' record-call sequences,
each VU recording the sample 1 exactly M times, the final Counter value is
exactly N times M — no update is lost under any order of the calls. -/
theorem counter_no_lost_updates (N M : Nat) (ls : List (List ℚ)) (tr : List ℚ)
    (hlen : ls.length = N) (hvu : ∀ l ∈ ls, l = List.replicate M 1)
    (hs : Sched ls tr) :
    (counterRun tr (CounterState.mk 0)).value = (N : ℚ) * (M : ℚ) := by
  have hsum : ∀ l ∈ ls, List.sum l = (M : ℚ) := by
    intro l hl
    rw [hvu l hl, List.sum_replicate, nsmul_eq_mul, mul_one]
  have hmap : ∀ x ∈ ls.map List.sum, x = (M : ℚ) := by
    intro x hx
    rcases List.mem_map.mp hx with ⟨l, hl, rfl⟩
    exact hsum l hl
  have := List.sum_eq_card_nsmul (ls.map List.sum) ((M : ℚ)) hmap
  rw [counterRun_value, sched_sum_eq hs, this]
  simp [hlen, nsmul_eq_mul]

/-- Witness for C2: two VUs each record 1 twice; one concrete interleaving of
the four calls yields the exact value 4. -/
theorem counter_no_lost_updates_witness :
    (counterRun [1, 1, 1, 1] (CounterState.mk 0)).value = (2 : ℚ) * (2 : ℚ) :=
  counter_no_lost_updates 2 2 [[1, 1], [1, 1]] [1, 1, 1, 1] rfl
    (by decide)
    (Sched.cons (Sched.cons Sched.nil (Merge.left (Merge.left Merge.nil)))
      (Merge.left (Merge.left (Merge.right (Merge.right Merge.nil)))))

/-- Closed form of the VU loop: with fuel n, iterations nextIter up to
nextIter plus n all execute in order, and the error metric grows by the
number of throwing iterations in that window. -/
theorem runVU_eq (f : Nat → Except String Unit) (n : Nat) : ∀ st : VUState,
    runVU f n st =
      VUState.mk (st.nextIter + n) (st.executed ++ List.range' st.nextIter n)
        (st.errors + errCount f st.nextIter n) := by
  induction n with
  | zero => intro st; simp [runVU, errCount, List.range']
  | succ n ih =>
      intro st
      have hr : List.range' st.nextIter (n + 1) =
          st.nextIter :: List.range' (st.nextIter + 1) n := List.range'_succ _ _ _
      cases hf : f st.nextIter with
      | ok u =>
          have hstep : runVU f (n + 1) st =
              runVU f n (VUState.mk (st.nextIter + 1) (st.executed ++ [st.nextIter]) st.errors) := by
            simp [runVU, hf]
          rw [hstep, ih]
          simp [hr, errCount, List.filter_cons, isErr, hf, Nat.add_assoc, Nat.add_comm 1 n]
      | error e =>
          have hstep : runVU f (n + 1) st =
              runVU f n
                (VUState.mk (st.nextIter + 1) (st.executed ++ [st.nextIter]) (st.errors + 1)) := by
            simp [runVU, hf]
          rw [hstep, ih]
          simp [hr, errCount, List.filter_cons, isErr, hf, Nat.add_assoc, Nat.add_comm 1 n]
          ring

/-- C3: if the scenario function throws on iteration K and the cutoff allows
at least K plus 2 iterations, the VU still executes every iteration below the
cutoff — in particular iteration K plus 1 — the error metric records at least
one error, and the loop returns normally (the run never crashes). -/
theorem vu_survives_iteration_error (f : Nat → Except String Unit) (K R : Nat)
    (e : String) (hK : f K = Except.error e) (hR : K + 1 < R) :
    (runVU f R (VUState.mk 0 [] 0)).executed = List.range R
    ∧ (K + 1) ∈ (runVU f R (VUState.mk 0 [] 0)).executed
    ∧ 1 ≤ (runVU f R (VUState.mk 0 [] 0)).errors := by
  rw [runVU_eq f R (VUState.mk 0 [] 0)]
  simp only [List.nil_append]
  refine ⟨by rw [List.range_eq_range'], ?_, ?_⟩
  · rw [List.mem_range'_1]
    omega
  · have hKmem : K ∈ (List.range' 0 R).filter (fun k => isErr (f k)) := by
      rw [List.mem_filter]
      constructor
      · rw [List.mem_range'_1]; omega
      · simp [isErr, hK]
    have hpos : 0 < ((List.range' 0 R).filter (fun k => isErr (f k))).length :=
      List.length_pos_of_mem hKmem
    simpa [errCount] using hpos

/-- Witness for C3: a scenario that throws on iteration 0 with a cutoff of 3
iterations still executes iterations 0, 1, 2 and records one error. -/
theorem vu_survives_iteration_error_witness :
    (runVU demoScen 3 (VUState.mk 0 [] 0)).executed = List.range 3
    ∧ 1 ∈ (runVU demoScen 3 (VUState.mk 0 [] 0)).executed
    ∧ 1 ≤ (runVU demoScen 3 (VUState.mk 0 [] 0)).errors :=
  vu_survives_iteration_error demoScen 0 3 "boom" rfl (by norm_num)

/-- C4: when the setup gate of the load-test script throws (health status not
200), the run is fatal: zero VUs start, zero iterations are recorded, the
exit code is the fatal-execution-error code, and any summary produced shows
zero samples. -/
theorem setup_failure_is_fatal (healthStatus : Nat) (cfg : EngineConfig)
    (h : healthStatus ≠ 200) :
    (runEngine (setupHealthGate healthStatus) cfg).vusStarted = 0
    ∧ (runEngine (setupHealthGate healthStatus) cfg).iterations = 0
    ∧ (runEngine (setupHealthGate healthStatus) cfg).exitCode = fatalErrorExitCode
    ∧ ∀ s, (runEngine (setupHealthGate healthStatus) cfg).summary = some s →
        s.samples = 0 := by
  simp [setupHealthGate, h, runEngine]

/-- Witness for C4: a 503 health response makes the whole run fatal. -/
theorem setup_failure_is_fatal_witness :
    (runEngine (setupHealthGate 503) (EngineConfig.mk 10 5 true)).vusStarted = 0
    ∧ (runEngine (setupHealthGate 503) (EngineConfig.mk 10 5 true)).iterations = 0
    ∧ (runEngine (setupHealthGate 503) (EngineConfig.mk 10 5 true)).exitCode =
        fatalErrorExitCode
    ∧ ∀ s, (runEngine (setupHealthGate 503) (EngineConfig.mk 10 5 true)).summary = some s →
        s.samples = 0 :=
  setup_failure_is_fatal 503 (EngineConfig.mk 10 5 true) (by norm_num)

/-- C6: threshold evaluation never silently passes on missing data: an
undefined metric name is a configuration error, and a tag-filtered sub-metric
with zero samples yields a failed verdict with the explicit no-data reason —
in particular no successful verdict for it is a pass. -/
theorem threshold_no_silent_pass (reg : Registry) (sel : Selector) (exprs : List Expr) :
    (reg.lookup sel.name = none →
      evaluateThreshold reg sel exprs =
        Except.error ("threshold references undefined metric: " ++ sel.name))
    ∧ (∀ md, reg.lookup sel.name = some md → subSamples md sel.tagFilter = [] →
        evaluateThreshold reg sel exprs =
          Except.ok (Verdict.mk false ThresholdReason.noData)
        ∧ ∀ v, evaluateThreshold reg sel exprs = Except.ok v → v.passed = false) := by
  constructor
  · intro h
    simp [evaluateThreshold, h]
  · intro md h hemp
    have h1 : evaluateThreshold reg sel exprs =
        Except.ok (Verdict.mk false ThresholdReason.noData) := by
      simp [evaluateThreshold, h, hemp]
    refine ⟨h1, ?_⟩
    intro v hv
    rw [h1] at hv
    injection hv with h2
    rw [← h2]

/-- Witness for C6: against a registry holding one http_req_duration sample
tagged api:products, a threshold on an undefined metric errors out, and one
on the api:auth sub-metric (zero samples) fails with the no-data reason. -/
theorem threshold_no_silent_pass_witness :
    evaluateThreshold demoRegistry (Selector.mk "nonexistent_metric" []) [] =
      Except.error ("threshold references undefined metric: " ++ "nonexistent_metric")
    ∧ evaluateThreshold demoRegistry
        (Selector.mk "http_req_duration" [("api", "auth")]) [] =
      Except.ok (Verdict.mk false ThresholdReason.noData) :=
  ⟨(threshold_no_silent_pass demoRegistry (Selector.mk "nonexistent_metric" []) []).1 rfl,
   ((threshold_no_silent_pass demoRegistry
      (Selector.mk "http_req_duration" [("api", "auth")]) []).2
      (MetricData.mk [([("api", "products")], 120)]) rfl rfl).1⟩

/-- Recording only coercible values into a Rate metric succeeds and counts
the successes and the totals exactly. -/
theorem rateRecordAll_ok (vs : List JsValue) (st : RateState)
    (h : ∀ v ∈ vs, coercible v = true) :
    rateRecordAll vs st =
      Except.ok (RateState.mk (st.successes + (vs.filter coercesTrue).length)
        (st.total + vs.length)) := by
  induction vs generalizing st with
  | nil => simp [rateRecordAll]
  | cons v vs ih =>
      have hv : coercible v = true := h v (List.mem_cons_self _ _)
      have hrest : ∀ w ∈ vs, coercible w = true := fun w hw => h w (List.mem_cons_of_mem _ hw)
      cases v with
      | bool b =>
          cases b with
          | true =>
              simp [rateRecordAll, rateRecord, coerceToBool, ih _ hrest,
                List.filter_cons, coercesTrue, RateState.mk.injEq]
              all_goals omega
          | false =>
              simp [rateRecordAll, rateRecord, coerceToBool, ih _ hrest,
                List.filter_cons, coercesTrue, RateState.mk.injEq]
              all_goals omega
      | num q =>
          by_cases hq : q = 0
          · subst hq
            simp [rateRecordAll, rateRecord, coerceToBool, ih _ hrest,
              List.filter_cons, coercesTrue, RateState.mk.injEq]
            all_goals omega
          · simp [rateRecordAll, rateRecord, coerceToBool, ih _ hrest,
              List.filter_cons, coercesTrue, RateState.mk.injEq, hq]
            all_goals omega
      | other => simp [coercible] at hv

/-- Recording any list containing a non-coercible value reports an error. -/
theorem rateRecordAll_violation (vs : List JsValue) (st : RateState)
    (h : ∃ v ∈ vs, coercible v = false) :
    ∃ e, rateRecordAll vs st = Except.error e := by
  induction vs generalizing st with
  | nil => rcases h with ⟨v, hv, _⟩; cases hv
  | cons v vs ih =>
      cases v with
      | other => exact ⟨"non-boolean-coercible value recorded to Rate metric", rfl⟩
      | bool b =>
          have h2 : ∃ w ∈ vs, coercible w = false := by
            rcases h with ⟨w, hw, hcw⟩
            rcases List.mem_cons.mp hw with rfl | hmem
            · cases hcw
            · exact ⟨w, hmem, hcw⟩
          cases b with
          | true =>
              rcases ih (RateState.mk (st.successes + 1) (st.total + 1)) h2 with ⟨e, he⟩
              exact ⟨e, by simp [rateRecordAll, rateRecord, coerceToBool, he]⟩
          | false =>
              rcases ih (RateState.mk st.successes (st.total + 1)) h2 with ⟨e, he⟩
              exact ⟨e, by simp [rateRecordAll, rateRecord, coerceToBool, he]⟩
      | num q =>
          have h2 : ∃ w ∈ vs, coercible w = false := by
            rcases h with ⟨w, hw, hcw⟩
            rcases List.mem_cons.mp hw with rfl | hmem
            · cases hcw
            · exact ⟨w, hmem, hcw⟩
          by_cases hq : q = 0
          · subst hq
            rcases ih (RateState.mk st.successes (st.total + 1)) h2 with ⟨e, he⟩
            exact ⟨e, by simp [rateRecordAll, rateRecord, coerceToBool, he]⟩
          · rcases ih (RateState.mk (st.successes + 1) (st.total + 1)) h2 with ⟨e, he⟩
            exact ⟨e, by simp [rateRecordAll, rateRecord, coerceToBool, hq, he]⟩

/-- C7: Rate recording coerces true and nonzero numbers to success, false and
zero to failure; the rate statistic is the number of success samples over the
total number of samples; and a non-boolean-coercible input is reported as a
contract violation rather than silently coerced. -/
theorem rate_metric_semantics :
    (∀ q : ℚ, q ≠ 0 → coerceToBool (JsValue.num q) = Except.ok true)
    ∧ coerceToBool (JsValue.num 0) = Except.ok false
    ∧ (∀ b : Bool, coerceToBool (JsValue.bool b) = Except.ok b)
    ∧ (∃ e, coerceToBool JsValue.other = Except.error e)
    ∧ (∀ vs : List JsValue, (∀ v ∈ vs, coercible v = true) →
        ∀ st, rateRecordAll vs (RateState.mk 0 0) = Except.ok st →
          rateStat st = ((vs.filter coercesTrue).length : ℚ) / ((vs.length : ℚ)))
    ∧ (∀ vs : List JsValue, (∃ v ∈ vs, coercible v = false) →
        ∃ e, rateRecordAll vs (RateState.mk 0 0) = Except.error e) := by
  refine ⟨?_, ?_, ?_, ?_, ?_, ?_⟩
  · intro q hq
    simp [coerceToBool, hq]
  · simp [coerceToBool]
  · intro b
    rfl
  · exact ⟨_, rfl⟩
  · intro vs h st hst
    rw [rateRecordAll_ok vs (RateState.mk 0 0) h] at hst
    injection hst with h2
    rw [← h2]
    simp [rateStat]
  · intro vs h
    exact rateRecordAll_violation vs (RateState.mk 0 0) h

/-- Witness for C7: recording true, 2 and 0 gives rate two thirds, and a
trace containing a non-coercible value is rejected. -/
theorem rate_metric_semantics_witness :
    (∀ st, rateRecordAll [JsValue.bool true, JsValue.num 2, JsValue.num 0]
        (RateState.mk 0 0) = Except.ok st → rateStat st = 2 / 3)
    ∧ ∃ e, rateRecordAll [JsValue.bool true, JsValue.other] (RateState.mk 0 0) =
        Except.error e := by
  constructor
  · intro st hst
    have h := rate_metric_semantics.2.2.2.2.1
      [JsValue.bool true, JsValue.num 2, JsValue.num 0] (by decide) st hst
    rw [h]
    norm_num [List.filter, coercesTrue]
  · exact rate_metric_semantics.2.2.2.2.2 [JsValue.bool true, JsValue.other]
      ⟨JsValue.other, by simp, rfl⟩

/-- C8: the request client returns a Sample for every outcome, failures
included, and never throws; a failure Sample carries the synthetic status 0
and a set error field, so the http_req_failed observation counts it as an
ordinary failing data point, and failure Samples are exactly the ones with
non-positive status and set error field. -/
theorem request_always_returns_sample (method url : String) (tags : TagSet)
    (outcome : NetOutcome)
    (hOk : ∀ st t, outcome = NetOutcome.success st t → 1 ≤ st) :
    (∀ f, outcome = NetOutcome.failure f →
        (request method url tags outcome).status = 0
        ∧ (request method url tags outcome).error = some (failureText f)
        ∧ sampleFailed (request method url tags outcome) = true)
    ∧ (∀ st t, outcome = NetOutcome.success st t →
        (request method url tags outcome).status = (st : Int)
        ∧ (request method url tags outcome).error = none)
    ∧ (isFailureOutcome outcome = true ↔
        (request method url tags outcome).status ≤ 0
        ∧ (request method url tags outcome).error ≠ none) := by
  cases outcome with
  | success st t =>
      have h1 : 1 ≤ st := hOk st t rfl
      refine ⟨?_, ?_, ?_⟩
      · intro f hf
        cases hf
      · intro st2 t2 h
        injection h with h2 h3
        subst h2
        exact ⟨rfl, rfl⟩
      · simp only [isFailureOutcome, request]
        constructor
        · intro h
          cases h
        · intro h
          exfalso
          have := h.1
          simp at this
          omega
  | failure f =>
      refine ⟨?_, ?_, ?_⟩
      · intro f2 hf
        injection hf with h2
        subst h2
        exact ⟨rfl, rfl, rfl⟩
      · intro st t h
        cases h
      · simp [isFailureOutcome, request]

/-- Witness for C8: a timed-out health request still yields a Sample, with
status 0, a set error field, and counted as a failing data point. -/
theorem request_always_returns_sample_witness :
    (request "GET" "http://localhost:3001/api/v1/health" []
        (NetOutcome.failure NetFailure.timeout)).status = 0
    ∧ (request "GET" "http://localhost:3001/api/v1/health" []
        (NetOutcome.failure NetFailure.timeout)).error = some (failureText NetFailure.timeout)
    ∧ sampleFailed (request "GET" "http://localhost:3001/api/v1/health" []
        (NetOutcome.failure NetFailure.timeout)) = true :=
  (request_always_returns_sample "GET" "http://localhost:3001/api/v1/health" []
    (NetOutcome.failure NetFailure.timeout)
    (fun _ _ h => NetOutcome.noConfusion h)).1 NetFailure.timeout rfl

/-- The clock-independent columns of the rows one metric contributes do not
depend on the timestamp. -/
theorem metricCsvRows_map_key (n : String) (m : SummaryMetric) (t1 t2 : String) :
    (metricCsvRows n m t1).map csvRowKey = (metricCsvRows n m t2).map csvRowKey := by
  unfold metricCsvRows
  cases m.values with
  | none => rfl
  | some vs =>
      obtain ⟨av, rt, vl⟩ := vs
      cases av <;> cases rt <;> cases vl <;> simp [csvRowKey]

/-- The clock-independent columns of the whole CSV export do not depend on
the timestamp. -/
theorem generateMetricsCSV_map_key (d : SummaryData) (t1 t2 : String) :
    (generateMetricsCSV d t1).map csvRowKey = (generateMetricsCSV d t2).map csvRowKey := by
  unfold generateMetricsCSV
  induction d.metrics with
  | nil => rfl
  | cons nm rest ih =>
      simp only [List.foldr_cons, List.map_append, ih]
      rw [metricCsvRows_map_key nm.fst nm.snd t1 t2]

/-- Counterexample to C9 as stated: two invocations of handleSummary on
identical summary data but at different wall-clock instants produce unequal
Summary outputs, because generateMetricsCSV stamps each row with the current
time, which is not among the claim's inputs. -/
theorem summary_build_not_deterministic :
    handleSummaryAdvanced (fun _ => "") (fun _ => "") demoSummaryData
        "2025-01-01T00:00:00.000Z"
      ≠ handleSummaryAdvanced (fun _ => "") (fun _ => "") demoSummaryData
        "2025-01-02T00:00:00.000Z" := by
  intro h
  have h2 := congrArg (fun o => o.csvRows.map CsvRow.timestamp) h
  simp [handleSummaryAdvanced, generateMetricsCSV, metricCsvRows, demoSummaryData] at h2

/-- C9 amended: summary building is deterministic given its inputs together
with the invocation timestamp: every output except the CSV export is a pure
function of the summary data, the CSV rows differ between invocation times
only in their timestamp column, invocations at equal times are equal, and
the engine run produces its summary exactly once at run completion. -/
theorem summary_build_deterministic_modulo_clock :
    (∀ (textSummary htmlReport : SummaryData → String) (d : SummaryData) (t1 t2 : String),
        (handleSummaryAdvanced textSummary htmlReport d t1).stdoutText =
          (handleSummaryAdvanced textSummary htmlReport d t2).stdoutText
        ∧ (handleSummaryAdvanced textSummary htmlReport d t1).htmlText =
            (handleSummaryAdvanced textSummary htmlReport d t2).htmlText
        ∧ (handleSummaryAdvanced textSummary htmlReport d t1).jsonResults =
            (handleSummaryAdvanced textSummary htmlReport d t2).jsonResults
        ∧ (handleSummaryAdvanced textSummary htmlReport d t1).analysisDoc =
            (handleSummaryAdvanced textSummary htmlReport d t2).analysisDoc
        ∧ (handleSummaryAdvanced textSummary htmlReport d t1).csvRows.map csvRowKey =
            (handleSummaryAdvanced textSummary htmlReport d t2).csvRows.map csvRowKey
        ∧ (t1 = t2 →
            handleSummaryAdvanced textSummary htmlReport d t1 =
              handleSummaryAdvanced textSummary htmlReport d t2))
    ∧ ∀ cfg : EngineConfig, (runEngine (Except.ok ()) cfg).summary =
        some (RunSummary.mk (cfg.vus * cfg.iterationsPerVU)) := by
  constructor
  · intro textSummary htmlReport d t1 t2
    refine ⟨rfl, rfl, rfl, rfl, generateMetricsCSV_map_key d t1 t2, ?_⟩
    intro h
    rw [h]
  · intro cfg
    rfl

/-- Witness for the amended C9: with the timestamp fixed, two invocations on
the demo summary data agree exactly. -/
theorem summary_build_deterministic_modulo_clock_witness :
    handleSummaryAdvanced (fun _ => "") (fun _ => "") demoSummaryData
        "2025-01-01T00:00:00.000Z"
      = handleSummaryAdvanced (fun _ => "") (fun _ => "") demoSummaryData
        "2025-01-01T00:00:00.000Z" :=
  (summary_build_deterministic_modulo_clock.1 (fun _ => "") (fun _ => "")
    demoSummaryData "2025-01-01T00:00:00.000Z" "2025-01-01T00:00:00.000Z").2.2.2.2.2 rfl

/-- Stage start times are nonnegative when durations are. -/
theorem stageStart_nonneg (stages : List Stage) (h : ∀ s ∈ stages, 0 ≤ s.duration) :
    ∀ i, 0 ≤ stageStart stages i := by
  induction stages with
  | nil => intro i; cases i <;> simp [stageStart]
  | cons s rest ih =>
      intro i
      cases i with
      | zero => simp [stageStart]
      | succ j =>
          have hs : 0 ≤ s.duration := h s (List.mem_cons_self _ _)
          have htail := ih (fun x hx => h x (List.mem_cons_of_mem _ hx)) j
          simp only [stageStart]
          linarith

/-- Consecutive stage boundaries are one stage duration apart. -/
theorem stageStart_succ (stages : List Stage) :
    ∀ (i : Nat) (hi : i < stages.length),
      stageStart stages (i + 1) = stageStart stages i + (stages.get ⟨i, hi⟩).duration := by
  induction stages with
  | nil => intro i hi; exact absurd hi (Nat.not_lt_zero i)
  | cons s rest ih =>
      intro i hi
      cases i with
      | zero =>
          simp [stageStart]
      | succ j =>
          have hj : j < rest.length := Nat.lt_of_succ_lt_succ hi
          simp only [stageStart, ih j hj, List.get]
          ring

/-- With positive durations, every stage boundary after the first is at a
strictly positive elapsed time. -/
theorem stageStart_succ_pos (stages : List Stage) (h : ∀ s ∈ stages, 0 < s.duration) :
    ∀ j, j + 1 ≤ stages.length → 0 < stageStart stages (j + 1) := by
  intro j hj
  cases stages with
  | nil => exact absurd hj (by simp)
  | cons s rest =>
      have hs : 0 < s.duration := h s (List.mem_cons_self _ _)
      have hnn : 0 ≤ stageStart rest j :=
        stageStart_nonneg rest (fun x hx => le_of_lt (h x (List.mem_cons_of_mem _ hx))) j
      simp only [stageStart]
      linarith

/-- Inside stage i, the target VU count follows the affine interpolation from
the incoming count to the stage's declared target. -/
theorem targetVU_piece (stages : List Stage) : ∀ init : ℚ,
    (∀ s ∈ stages, 0 < s.duration) →
    ∀ (i : Nat) (hi : i < stages.length) (t : ℚ),
      stageStart stages i ≤ t → t ≤ stageStart stages (i + 1) →
      targetVU init stages t =
        rampBase init stages i +
          ((stages.get ⟨i, hi⟩).target - rampBase init stages i) *
            (t - stageStart stages i) / (stages.get ⟨i, hi⟩).duration := by
  induction stages with
  | nil => intro init hd i hi; exact absurd hi (Nat.not_lt_zero i)
  | cons s rest ih =>
      intro init hd i hi t h1 h2
      have hs : 0 < s.duration := hd s (List.mem_cons_self _ _)
      have hsne : s.duration ≠ 0 := ne_of_gt hs
      have hrest : ∀ x ∈ rest, 0 < x.duration := fun x hx => hd x (List.mem_cons_of_mem _ hx)
      cases i with
      | zero =>
          have htd : t ≤ s.duration := by
            have h2v : t ≤ s.duration + stageStart rest 0 := h2
            simpa [stageStart] using h2v
          simp [targetVU, htd, hsne, stageStart, rampBase]
      | succ j =>
          have hj : j < rest.length := Nat.lt_of_succ_lt_succ hi
          have hnn : 0 ≤ stageStart rest j :=
            stageStart_nonneg rest (fun x hx => le_of_lt (hrest x hx)) j
          have h1v : s.duration + stageStart rest j ≤ t := h1
          by_cases hcase : t ≤ s.duration
          · have hz : stageStart rest j = 0 := by linarith
            have ht : t = s.duration := by linarith
            cases j with
            | zero =>
                subst ht
                simp [targetVU, hsne, rampBase, stageStart]
            | succ k =>
                exfalso
                have hpos := stageStart_succ_pos rest hrest k (by omega)
                rw [hz] at hpos
                exact lt_irrefl 0 hpos
          · have h1r : stageStart rest j ≤ t - s.duration := by linarith
            have h2r : t - s.duration ≤ stageStart rest (j + 1) := by
              have h2v : t ≤ s.duration + stageStart rest (j + 1) := h2
              linarith
            have hrec := ih s.target hrest j hj (t - s.duration) h1r h2r
            have hlhs : targetVU init (s :: rest) t = targetVU s.target rest (t - s.duration) := by
              simp [targetVU, hcase]
            rw [hlhs, hrec]
            simp only [rampBase, stageStart, List.get]
            ring

/-- C1: for a non-empty stage list with positive durations and elapsed time
t inside stage i, the target VU count is the linear interpolation from the
incoming count to the stage's declared target across the stage, it equals
the declared target exactly at the stage's transition timestamp (so adjacent
affine pieces agree at their shared boundary and the piecewise-linear
function is continuous), and it is constant on plateau stages whose target
equals the incoming count. -/
theorem scheduler_piecewise_linear (init : ℚ) (stages : List Stage)
    (hd : ∀ s ∈ stages, 0 < s.duration)
    (i : Nat) (hi : i < stages.length) (t : ℚ)
    (h1 : stageStart stages i ≤ t) (h2 : t ≤ stageStart stages (i + 1)) :
    targetVU init stages t =
      rampBase init stages i +
        ((stages.get ⟨i, hi⟩).target - rampBase init stages i) *
          (t - stageStart stages i) / (stages.get ⟨i, hi⟩).duration
    ∧ targetVU init stages (stageStart stages (i + 1)) = (stages.get ⟨i, hi⟩).target
    ∧ ((stages.get ⟨i, hi⟩).target = rampBase init stages i →
        targetVU init stages t = (stages.get ⟨i, hi⟩).target) := by
  have hpiece := targetVU_piece stages init hd i hi t h1 h2
  have hd_i : 0 < (stages.get ⟨i, hi⟩).duration := hd _ (List.get_mem stages i hi)
  have hne : (stages.get ⟨i, hi⟩).duration ≠ 0 := ne_of_gt hd_i
  refine ⟨hpiece, ?_, ?_⟩
  · have hmono : stageStart stages i ≤ stageStart stages (i + 1) := by
      rw [stageStart_succ stages i hi]
      linarith
    have hend := targetVU_piece stages init hd i hi (stageStart stages (i + 1)) hmono le_rfl
    rw [hend, stageStart_succ stages i hi]
    rw [add_sub_cancel_left, mul_div_assoc, div_self hne, mul_one]
    ring
  · intro heq
    rw [hpiece, heq]
    simp

/-- Witness for C1: on the load-test stages, one minute into the first 2m
ramp to 10 the target is 5, and at the first transition timestamp (120s) it
is exactly the declared target 10. -/
theorem scheduler_piecewise_linear_witness :
    targetVU 0 loadTestStages 60 = 5 ∧ targetVU 0 loadTestStages 120 = 10 := by
  have hd : ∀ s ∈ loadTestStages, 0 < s.duration := by
    intro s hs
    simp [loadTestStages] at hs
    rcases hs with rfl | rfl | rfl | rfl | rfl <;> norm_num
  have hi : 0 < loadTestStages.length := by simp [loadTestStages]
  have h := scheduler_piecewise_linear 0 loadTestStages hd 0 hi 60
    (by norm_num [stageStart]) (by norm_num [loadTestStages, stageStart])
  constructor
  · rw [h.1]
    norm_num [loadTestStages, rampBase, stageStart]
  · have hb : stageStart loadTestStages 1 = 120 := by
      norm_num [loadTestStages, stageStart]
    have hend := h.2.1
    rw [hb] at hend
    rw [hend]
    norm_num [loadTestStages]

end K6
